import Mathlib

/-!
Verification of the smolagent repository: a shallow embedding of the agent
loop (`src/smolagent/agent.py`), its action parser, and the calculator tools
(`src/smolagent/calculator_tools.py`), together with theorems settling the
specification claims about them.

Text is embedded as `List Char` (Python `str`).  JSON values decoded by
Python `json.loads` are embedded as the inductive type `JsonValue`, and
`json_loads` below is an executable model of the decoder on the JSON
grammar (objects, arrays, strings with the simple escapes, integer and
decimal numbers, `true`/`false`/`null`).  Out of the model and treated as
undecodable: `\u` escapes and the nonstandard `NaN`/`Infinity` literals.
Python floats are modelled as exact rationals.
-/

/-- Python strings are embedded as lists of characters. -/
abbrev Str := List Char

/-- The left-brace character, written via its code point. -/
def lbrace : Char := Char.ofNat 123

/-- The right-brace character, written via its code point. -/
def rbrace : Char := Char.ofNat 125

/-- The double-quote character. -/
def dquote : Char := Char.ofNat 34

/-- The backslash character. -/
def bslash : Char := Char.ofNat 92

/-- A JSON number as decoded by Python: an `int` or a `float`.
Floats are modelled as exact rationals. -/
inductive JNum where
  | jint (i : Int)
  | jfloat (q : ℚ)
deriving DecidableEq

/-- The numeric value of a Python number, as a rational. -/
def JNum.toRat : JNum → ℚ
  | .jint i => (i : ℚ)
  | .jfloat q => q

/-- A decoded JSON value (the possible results of `json.loads`). -/
inductive JsonValue where
  | null
  | bool (b : Bool)
  | num (n : JNum)
  | str (s : Str)
  | arr (elems : List JsonValue)
  | obj (fields : List (Str × JsonValue))

instance : Inhabited JsonValue := ⟨JsonValue.null⟩

/-- JSON whitespace characters (the ones `json.loads` skips). -/
def isJsonWs (c : Char) : Bool :=
  c == ' ' || c == Char.ofNat 9 || c == Char.ofNat 10 || c == Char.ofNat 13

/-- Drop leading JSON whitespace. -/
def skipWs : Str → Str
  | [] => []
  | c :: cs => if isJsonWs c then skipWs cs else c :: cs

/-- Decode a single JSON string escape character (after the backslash).
The `\u` escape is out of the model. -/
def decodeEsc (c : Char) : Option Char :=
  if c == dquote then some dquote
  else if c == bslash then some bslash
  else if c == '/' then some '/'
  else if c == 'b' then some (Char.ofNat 8)
  else if c == 'f' then some (Char.ofNat 12)
  else if c == 'n' then some (Char.ofNat 10)
  else if c == 'r' then some (Char.ofNat 13)
  else if c == 't' then some (Char.ofNat 9)
  else none

/-- Parse the body of a JSON string (input starts after the opening quote);
returns the decoded content and the remaining input after the closing
quote.  Raw control characters are rejected, as in the strict decoder. -/
def parseJString : Str → Option (Str × Str)
  | [] => none
  | c :: cs =>
    if c == dquote then some ([], cs)
    else if c == bslash then
      match cs with
      | [] => none
      | e :: cs2 =>
        match decodeEsc e with
        | some r =>
          match parseJString cs2 with
          | some (s, rest) => some (r :: s, rest)
          | none => none
        | none => none
    else if c.toNat < 32 then none
    else
      match parseJString cs with
      | some (s, rest) => some (c :: s, rest)
      | none => none

/-- Take the maximal run of decimal digits from the front of the input. -/
def spanDigits : Str → (List Char × Str)
  | [] => ([], [])
  | c :: cs =>
    if c.isDigit then
      match spanDigits cs with
      | (d, r) => (c :: d, r)
    else ([], c :: cs)

/-- Numeric value of a digit run. -/
def digitsToNat (ds : List Char) : Nat :=
  ds.foldl (fun a c => a * 10 + (c.toNat - 48)) 0

/-- Parse the optional exponent part of a JSON number.  Returns the
exponent (0 when absent), whether an exponent was present, and the rest. -/
def parseJExp (cs : Str) : Option (Int × Bool × Str) :=
  match cs with
  | c :: cs1 =>
    if c == 'e' || c == 'E' then
      let (sgn, cs2) :=
        match cs1 with
        | s :: t => if s == '+' then ((1 : Int), t) else if s == '-' then ((-1 : Int), t) else (1, cs1)
        | [] => (1, cs1)
      match spanDigits cs2 with
      | ([], _) => none
      | (ds, r) => some (sgn * (digitsToNat ds : Int), true, r)
    else some (0, false, cs)
  | [] => some (0, false, cs)

/-- Scale a rational by an integer power of ten. -/
def scalePow10 (q : ℚ) (e : Int) : ℚ :=
  if 0 ≤ e then q * (10 : ℚ) ^ e.toNat else q / (10 : ℚ) ^ (-e).toNat

/-- Parse a JSON number (grammar: `-? (0 | [1-9][0-9]*) frac? exp?`),
integer results decoding to Python `int`, the rest to `float`. -/
def parseJNum (cs : Str) : Option (JNum × Str) :=
  let (neg, cs1) := match cs with
    | c :: t => if c == '-' then (true, t) else (false, cs)
    | [] => (false, cs)
  match spanDigits cs1 with
  | ([], _) => none
  | (ip, r1) =>
    if ip.length > 1 && ip.headD '0' == '0' then none
    else
      let fracStep : Option (List Char × Bool × Str) :=
        match r1 with
        | c :: r2 =>
          if c == '.' then
            match spanDigits r2 with
            | ([], _) => none
            | (fp, r3) => some (fp, true, r3)
          else some ([], false, r1)
        | [] => some ([], false, r1)
      match fracStep with
      | none => none
      | some (fp, hasFrac, r3) =>
        match parseJExp r3 with
        | none => none
        | some (e, hasExp, r4) =>
          let sgn : Int := if neg then -1 else 1
          if hasFrac || hasExp then
            let mant : ℚ := (sgn * (digitsToNat (ip ++ fp) : Int) : Int)
            some (.jfloat (scalePow10 mant (e - (fp.length : Int))), r4)
          else
            some (.jint (sgn * (digitsToNat ip : Int)), r4)

/-- Drop a literal keyword prefix, or fail. -/
def dropLit : Str → Str → Option Str
  | [], cs => some cs
  | _ :: _, [] => none
  | l :: ls, c :: cs => if c == l then dropLit ls cs else none

/-- Insert a key into a decoded object the way Python builds the `dict`:
an existing key is overwritten in place, a new key is appended.  This makes
decoded objects carry unique keys, as Python dicts do. -/
def jdictInsert (d : List (Str × JsonValue)) (k : Str) (v : JsonValue) :
    List (Str × JsonValue) :=
  if d.any (fun p => p.1 == k) then
    d.map (fun p => if p.1 == k then (k, v) else p)
  else d ++ [(k, v)]

/-- Look a key up in a decoded object. -/
def jdictGet (d : List (Str × JsonValue)) (k : Str) : Option JsonValue :=
  (d.find? (fun p => p.1 == k)).map (fun p => p.2)

mutual

/-- Parse one JSON value (leading whitespace allowed); fuel-driven
recursion, where the fuel is at least the input length plus one. -/
def parseJValue : Nat → Str → Option (JsonValue × Str)
  | 0, _ => none
  | fuel + 1, cs =>
    match skipWs cs with
    | [] => none
    | c :: rest =>
      if c == lbrace then
        match skipWs rest with
        | d :: r => if d == rbrace then some (.obj [], r) else parseJMembers fuel (d :: r) []
        | [] => none
      else if c == '[' then
        match skipWs rest with
        | d :: r => if d == ']' then some (.arr [], r) else parseJElems fuel (d :: r) []
        | [] => none
      else if c == dquote then
        match parseJString rest with
        | some (s, r) => some (.str s, r)
        | none => none
      else if c == 't' then
        match dropLit "rue".data rest with
        | some r => some (.bool true, r)
        | none => none
      else if c == 'f' then
        match dropLit "alse".data rest with
        | some r => some (.bool false, r)
        | none => none
      else if c == 'n' then
        match dropLit "ull".data rest with
        | some r => some (.null, r)
        | none => none
      else if c == '-' || c.isDigit then
        match parseJNum (c :: rest) with
        | some (n, r) => some (.num n, r)
        | none => none
      else none

/-- Parse the members of a JSON object, positioned at a key (whitespace
already skipped), accumulating the decoded fields dict-style. -/
def parseJMembers : Nat → Str → List (Str × JsonValue) → Option (JsonValue × Str)
  | 0, _, _ => none
  | fuel + 1, cs, acc =>
    match cs with
    | c :: rest =>
      if c == dquote then
        match parseJString rest with
        | some (k, r1) =>
          match skipWs r1 with
          | d :: r2 =>
            if d == ':' then
              match parseJValue fuel r2 with
              | some (v, r3) =>
                match skipWs r3 with
                | e :: r4 =>
                  if e == ',' then parseJMembers fuel (skipWs r4) (jdictInsert acc k v)
                  else if e == rbrace then some (.obj (jdictInsert acc k v), r4)
                  else none
                | [] => none
              | none => none
            else none
          | [] => none
        | none => none
      else none
    | [] => none

/-- Parse the elements of a JSON array, positioned at an element. -/
def parseJElems : Nat → Str → List JsonValue → Option (JsonValue × Str)
  | 0, _, _ => none
  | fuel + 1, cs, acc =>
    match parseJValue fuel cs with
    | some (v, r1) =>
      match skipWs r1 with
      | e :: r2 =>
        if e == ',' then parseJElems fuel r2 (acc ++ [v])
        else if e == ']' then some (.arr (acc ++ [v]), r2)
        else none
      | [] => none
    | none => none

end

/-- Model of Python `json.loads`: decode one JSON value and require that
only whitespace remains; `none` models `json.JSONDecodeError`. -/
def json_loads (s : Str) : Option JsonValue :=
  match parseJValue (s.length + 1) s with
  | some (v, rest) => if skipWs rest == [] then some v else none
  | none => none

/-- Index of the first occurrence of a character. -/
def firstIdxOf (s : Str) (c : Char) : Option Nat :=
  match s with
  | [] => none
  | x :: xs => if x == c then some 0 else (firstIdxOf xs c).map (· + 1)

/-- Index of the last occurrence of a character. -/
def lastIdxOf (s : Str) (c : Char) : Option Nat :=
  match s with
  | [] => none
  | x :: xs =>
    match lastIdxOf xs c with
    | some k => some (k + 1)
    | none => if x == c then some 0 else none

/-- Model of `re.search(r"\{.*\}", response, re.DOTALL)` in
`Agent._parse_action` (src/smolagent/agent.py line 170): a match exists
exactly when some right brace occurs after the first left brace, and the
greedy group then runs from the first left brace to the last right brace
of the whole text. -/
def extractBraced (s : Str) : Option Str :=
  match firstIdxOf s lbrace, lastIdxOf s rbrace with
  | some i, some j => if i < j then some ((s.take (j + 1)).drop i) else none
  | _, _ => none

/-- Model of `Agent._parse_action` (src/smolagent/agent.py lines 156-174):
decode the brace-delimited substring when the regex matches, otherwise
decode the whole response; when the substring is matched but fails to
decode, the decode error propagates, with no second attempt on the whole
text.  `none` models the propagated `json.JSONDecodeError`. -/
def parse_action (response : Str) : Option JsonValue :=
  match extractBraced response with
  | some sub => json_loads sub
  | none => json_loads response

/-- Conversation roles (`"system"`, `"user"`, `"assistant"`). -/
inductive Role where
  | system
  | user
  | assistant
deriving DecidableEq

/-- One conversation message: a role/content pair. -/
structure Message where
  role : Role
  content : Str
deriving DecidableEq

/-- A tool: name, description, and an execution entry point taking the
keyword-argument dict and returning either the textual rendering of the
result or the message of the raised exception
(src/src/agentexp/tools.py, class `Tool`). -/
structure Tool where
  name : Str
  description : Str
  execute : List (Str × JsonValue) → Except Str Str

/-- Insert a tool into the registry dict the way Python builds
`{tool.name: tool for tool in tools}`: an existing key is overwritten in
place, a new key is appended. -/
def regInsert (d : List (Str × Tool)) (k : Str) (v : Tool) : List (Str × Tool) :=
  if d.any (fun p => p.1 == k) then
    d.map (fun p => if p.1 == k then (k, v) else p)
  else d ++ [(k, v)]

/-- The tool registry built in `Agent.__init__`
(src/smolagent/agent.py line 44). -/
def toolRegistry (tools : List Tool) : List (Str × Tool) :=
  tools.foldl (fun d t => regInsert d t.name t) []

/-- Registry lookup, modelling `self.tools[name]` and `name in self.tools`. -/
def regLookup (reg : List (Str × Tool)) (n : Str) : Option Tool :=
  (reg.find? (fun p => p.1 == n)).map (fun p => p.2)

/-- One line of the tool enumeration: `f"- {tool.name}: {tool.description}"`
(src/smolagent/agent.py line 51). -/
def formatToolLine (t : Tool) : Str :=
  "- ".data ++ t.name ++ ": ".data ++ t.description

/-- Python `sep.join(parts)`. -/
def joinSep (sep : Str) : List Str → Str
  | [] => []
  | [x] => x
  | x :: y :: ys => x ++ sep ++ joinSep sep (y :: ys)

/-- The newline character as a one-character string. -/
def nlStr : Str := [Char.ofNat 10]

/-- Model of `Agent._format_tools_description`
(src/smolagent/agent.py lines 47-52). -/
def format_tools_description (reg : List (Str × Tool)) : Str :=
  joinSep nlStr ((reg.map (fun p => p.2)).map formatToolLine)

/-- The part of the system prompt template before the tool enumeration
(src/smolagent/agent.py lines 57-61). -/
def promptHeader : Str :=
  "You are a helpful AI assistant that can use tools to accomplish tasks.\n\nAvailable tools:\n".data

/-- The part of the system prompt template after the tool enumeration
(src/smolagent/agent.py lines 62-70). -/
def promptFooter : Str :=
  ("\n\nTo use a tool, respond with a JSON object in this format:\n" ++
   "\x7b\"tool\": \"tool_name\", \"arguments\": \x7b\"arg1\": \"value1\", \"arg2\": \"value2\"\x7d\x7d\n" ++
   "\nWhen you have completed the task, respond with:\n" ++
   "\x7b\"final_answer\": \"your answer here\"\x7d\n" ++
   "\nAlways think step by step and use tools to verify your work when possible.\n").data

/-- Model of `Agent._create_system_prompt`
(src/smolagent/agent.py lines 54-70). -/
def create_system_prompt (reg : List (Str × Tool)) : Str :=
  promptHeader ++ format_tools_description reg ++ promptFooter

/-- The key string `"final_answer"`. -/
def finalAnswerKey : Str := "final_answer".data

/-- The key string `"tool"`. -/
def toolKey : Str := "tool".data

/-- The key string `"arguments"`. -/
def argumentsKey : Str := "arguments".data

/-- The corrective message injected on a decode failure
(src/smolagent/agent.py line 112). -/
def correctiveText : Str := "Please respond with a valid JSON object.".data

/-- The message injected when the action carries neither a tool nor a
final answer (src/smolagent/agent.py line 149). -/
def specifyText : Str := "Please specify a tool to use or provide a final_answer.".data

/-- `f"Unknown tool: {tool_name}"` (src/smolagent/agent.py line 127). -/
def unknownToolText (n : Str) : Str := "Unknown tool: ".data ++ n

/-- `f"Tool result: {result}"` (src/smolagent/agent.py line 135). -/
def toolResultText (r : Str) : Str := "Tool result: ".data ++ r

/-- `f"Tool error: {str(e)}"` (src/smolagent/agent.py line 140). -/
def toolErrorText (e : Str) : Str := "Tool error: ".data ++ e

/-- Substring test, modelling Python `needle in haystack` on strings. -/
def containsSub (hay needle : Str) : Bool :=
  needle.isPrefixOf hay ||
    match hay with
    | [] => false
    | _ :: t => containsSub t needle

/-- Model of Python `needle in value` for a string needle: key membership
on dicts, substring on strings, element equality on lists; `none` models
the `TypeError` raised on the non-iterable values (numbers, booleans,
`None`). -/
def pyContains (needle : Str) : JsonValue → Option Bool
  | .obj fields => some (fields.any (fun p => p.1 == needle))
  | .str s => some (containsSub s needle)
  | .arr xs => some (xs.any (fun v => match v with | .str s => s == needle | _ => false))
  | _ => none

/-- Model of Python `value[key]` for a string key: dict lookup on dicts;
`none` models the `TypeError` raised when subscripting a string or list
with a string key.  (The dict case is only evaluated after a successful
membership test, so the `KeyError` case cannot arise.) -/
def pySubscript (v : JsonValue) (key : Str) : Option JsonValue :=
  match v with
  | .obj fields => jdictGet fields key
  | _ => none

/-- `str()` rendering of the hashable scalar values, used for
`f"Unknown tool: {tool_name}"` when the decoded tool name is not a string.
The float rendering abstracts CPython formatting; it is not load-bearing. -/
def pyStrScalar : JsonValue → Str
  | .null => "None".data
  | .bool true => "True".data
  | .bool false => "False".data
  | .num (.jint i) => (toString i).data
  | .num (.jfloat q) => (toString q).data
  | _ => []

/-- Modelled message of the `TypeError` CPython raises when `execute` is
called with `**tool_args` and `tool_args` is not a mapping; the exact text
is implementation detail and not load-bearing. -/
def kwargsErrorText : Str :=
  "execute() argument after ** must be a mapping".data

/-- Outcome of one dispatch of a decoded action
(the body of `Agent.run` after `_parse_action`,
src/smolagent/agent.py lines 117-152). -/
inductive StepOutcome where
  | done (v : JsonValue)
  | next (msgs : List Message)
  | typeErr

/-- Dispatch one decoded action, mirroring src/smolagent/agent.py lines
117-152 statement by statement; returns the outcome together with the
number of tool `execute` calls made (0 or 1).  `typeErr` models an
uncaught `TypeError` (only `json.JSONDecodeError` is caught by the loop). -/
def dispatchAction (reg : List (Str × Tool)) (action : JsonValue)
    (msgs : List Message) : StepOutcome × Nat :=
  match pyContains finalAnswerKey action with
  | none => (.typeErr, 0)
  | some true =>
    match pySubscript action finalAnswerKey with
    | some v => (.done v, 0)
    | none => (.typeErr, 0)
  | some false =>
    match pyContains toolKey action with
    | none => (.typeErr, 0)
    | some false => (.next (msgs ++ [⟨Role.user, specifyText⟩]), 0)
    | some true =>
      match action with
      | .obj fields =>
        match jdictGet fields toolKey with
        | none => (.typeErr, 0)
        | some toolName =>
          let args := (jdictGet fields argumentsKey).getD (.obj [])
          match toolName with
          | .arr _ => (.typeErr, 0)
          | .obj _ => (.typeErr, 0)
          | .str n =>
            match regLookup reg n with
            | none => (.next (msgs ++ [⟨Role.user, unknownToolText n⟩]), 0)
            | some t =>
              match args with
              | .obj argFields =>
                match t.execute argFields with
                | .ok r => (.next (msgs ++ [⟨Role.user, toolResultText r⟩]), 1)
                | .error e => (.next (msgs ++ [⟨Role.user, toolErrorText e⟩]), 1)
              | _ => (.next (msgs ++ [⟨Role.user, toolErrorText kwargsErrorText⟩]), 0)
          | .null => (.next (msgs ++ [⟨Role.user, unknownToolText (pyStrScalar toolName)⟩]), 0)
          | .bool _ => (.next (msgs ++ [⟨Role.user, unknownToolText (pyStrScalar toolName)⟩]), 0)
          | .num _ => (.next (msgs ++ [⟨Role.user, unknownToolText (pyStrScalar toolName)⟩]), 0)
      | _ => (.typeErr, 0)

/-- Result of a whole run: the returned final-answer value, the
`RuntimeError` on budget exhaustion, or an uncaught `TypeError`. -/
inductive RunResult where
  | answer (v : JsonValue)
  | budgetExceeded
  | typeErr

/-- The agent: a backend (modelled as a function of the call index and the
conversation), the tool registry, and the iteration budget. -/
structure Agent where
  llmProvider : Nat → List Message → Str
  tools : List (Str × Tool)
  maxIterations : Nat

/-- `Agent.__init__` (src/smolagent/agent.py lines 29-45). -/
def Agent.make (provider : Nat → List Message → Str) (toolList : List Tool)
    (maxIterations : Nat) : Agent :=
  ⟨provider, toolRegistry toolList, maxIterations⟩

/-- The conversation seeded at the top of `Agent.run`
(src/smolagent/agent.py lines 86-89). -/
def initialMessages (reg : List (Str × Tool)) (task : Str) : List Message :=
  [⟨Role.system, create_system_prompt reg⟩, ⟨Role.user, task⟩]

/-- The iteration loop of `Agent.run` (src/smolagent/agent.py lines
91-154), instrumented with the running conversation and the number of
backend calls made.  Each iteration calls the backend once, appends the
reply as an assistant message, and either self-heals (decode failure,
unknown tool, tool error, shapeless action), returns the final answer,
or surfaces an uncaught `TypeError`. -/
def runAux (provider : Nat → List Message → Str) (reg : List (Str × Tool)) :
    Nat → Nat → List Message → Nat → RunResult × List Message × Nat
  | 0, _, msgs, calls => (.budgetExceeded, msgs, calls)
  | remaining + 1, callIdx, msgs, calls =>
    let resp := provider callIdx msgs
    let msgs1 := msgs ++ [⟨Role.assistant, resp⟩]
    match parse_action resp with
    | none =>
      runAux provider reg remaining (callIdx + 1)
        (msgs1 ++ [⟨Role.user, correctiveText⟩]) (calls + 1)
    | some action =>
      match dispatchAction reg action msgs1 with
      | (.done v, _) => (.answer v, msgs1, calls + 1)
      | (.typeErr, _) => (.typeErr, msgs1, calls + 1)
      | (.next m2, _) => runAux provider reg remaining (callIdx + 1) m2 (calls + 1)

/-- `Agent.run` (src/smolagent/agent.py lines 72-154): seeds the
conversation and drives the loop for at most `maxIterations` iterations. -/
def Agent.run (a : Agent) (task : Str) : RunResult × List Message × Nat :=
  runAux a.llmProvider a.tools a.maxIterations 0
    (initialMessages a.tools task) 0

/-- Tokens of the arithmetic expression language evaluated by
`CalculatorTool.execute` (src/smolagent/calculator_tools.py line 59).
The source calls `eval` with a restricted namespace; the model covers the
forms the tool documents: numeric literals, `+ - * / **`, unary signs and
parentheses.  Names from the safe namespace (`abs`, `round`, ...) and
other Python syntax are outside the model and map to errors. -/
inductive CTok where
  | cnum (n : JNum)
  | cplus
  | cminus
  | cstar
  | cslash
  | cdstar
  | clpar
  | crpar
deriving DecidableEq

/-- Modelled message of a Python `SyntaxError` from `eval`; the exact text
is implementation detail and not load-bearing. -/
def synErrText : Str := "invalid syntax (<string>, line 1)".data

/-- Message of `ZeroDivisionError` on `x / 0`. -/
def divZeroText : Str := "division by zero".data

/-- Message of `ZeroDivisionError` on `0 ** negative`. -/
def zeroNegPowText : Str := "0.0 cannot be raised to a negative power".data

/-- Modelled message of the `TypeError` from `eval` applied to a
non-string argument; not load-bearing. -/
def evalArgText : Str := "eval() arg 1 must be a string, bytes or code object".data

/-- Modelled message of the `TypeError` raised when keyword binding of a
tool call fails (wrong or missing argument names); not load-bearing. -/
def bindingErrorText : Str := "unexpected or missing keyword argument".data

/-- Lexer for the arithmetic expressions; fuel at least length plus one. -/
def calcLex : Nat → Str → Option (List CTok)
  | 0, _ => none
  | _, [] => some []
  | f + 1, c :: cs =>
    if c == ' ' || c == Char.ofNat 9 then calcLex f cs
    else if c == '+' then (calcLex f cs).map (CTok.cplus :: ·)
    else if c == '-' then (calcLex f cs).map (CTok.cminus :: ·)
    else if c == '(' then (calcLex f cs).map (CTok.clpar :: ·)
    else if c == ')' then (calcLex f cs).map (CTok.crpar :: ·)
    else if c == '/' then (calcLex f cs).map (CTok.cslash :: ·)
    else if c == '*' then
      match cs with
      | d :: cs2 =>
        if d == '*' then (calcLex f cs2).map (CTok.cdstar :: ·)
        else (calcLex f cs).map (CTok.cstar :: ·)
      | [] => (calcLex f cs).map (CTok.cstar :: ·)
    else if c.isDigit || c == '.' then
      match spanDigits (c :: cs) with
      | (ip, r1) =>
        match r1 with
        | d :: r2 =>
          if d == '.' then
            match spanDigits r2 with
            | (fp, r3) =>
              if ip.isEmpty && fp.isEmpty then none
              else
                (calcLex f r3).map
                  (CTok.cnum (.jfloat ((digitsToNat (ip ++ fp) : ℚ) / (10 : ℚ) ^ fp.length)) :: ·)
          else (calcLex f r1).map (CTok.cnum (.jint (digitsToNat ip : Int)) :: ·)
        | [] => (calcLex f r1).map (CTok.cnum (.jint (digitsToNat ip : Int)) :: ·)
    else none

/-- Python numeric addition: `int + int` stays `int`, otherwise `float`. -/
def pyAdd : JNum → JNum → JNum
  | .jint a, .jint b => .jint (a + b)
  | a, b => .jfloat (a.toRat + b.toRat)

/-- Python numeric subtraction. -/
def pySub : JNum → JNum → JNum
  | .jint a, .jint b => .jint (a - b)
  | a, b => .jfloat (a.toRat - b.toRat)

/-- Python numeric multiplication. -/
def pyMul : JNum → JNum → JNum
  | .jint a, .jint b => .jint (a * b)
  | a, b => .jfloat (a.toRat * b.toRat)

/-- Python unary minus. -/
def pyNeg : JNum → JNum
  | .jint a => .jint (-a)
  | .jfloat q => .jfloat (-q)

/-- Python true division: always a `float`; division by zero raises. -/
def pyDiv (a b : JNum) : Except Str JNum :=
  if b.toRat = 0 then .error divZeroText
  else .ok (.jfloat (a.toRat / b.toRat))

/-- Python power.  Integer exponents are modelled exactly; a `float`
exponent with a fractional part would be a real-valued power, which is
outside the rational model and maps to an error. -/
def pyPow (a b : JNum) : Except Str JNum :=
  match b with
  | .jint e =>
    if 0 ≤ e then
      match a with
      | .jint i => .ok (.jint (i ^ e.toNat))
      | .jfloat q => .ok (.jfloat (q ^ e.toNat))
    else if a.toRat = 0 then .error zeroNegPowText
    else .ok (.jfloat (1 / a.toRat ^ (-e).toNat))
  | .jfloat q =>
    if q.den = 1 then
      if 0 ≤ q.num then
        match a with
        | .jint i => .ok (.jfloat ((i : ℚ) ^ q.num.toNat))
        | .jfloat p => .ok (.jfloat (p ^ q.num.toNat))
      else if a.toRat = 0 then .error zeroNegPowText
      else .ok (.jfloat (1 / a.toRat ^ (-q.num).toNat))
    else .error synErrText

mutual

/-- Evaluate an additive expression (`+`/`-`, left associative). -/
def evalE : Nat → List CTok → Except Str (JNum × List CTok)
  | 0, _ => .error synErrText
  | f + 1, ts => do
    let (a, r) ← evalT f ts
    evalERest f a r

/-- Fold the trailing `+`/`-` operations. -/
def evalERest : Nat → JNum → List CTok → Except Str (JNum × List CTok)
  | 0, _, _ => .error synErrText
  | f + 1, a, ts =>
    match ts with
    | .cplus :: r => do
      let (b, r2) ← evalT f r
      evalERest f (pyAdd a b) r2
    | .cminus :: r => do
      let (b, r2) ← evalT f r
      evalERest f (pySub a b) r2
    | _ => .ok (a, ts)

/-- Evaluate a multiplicative term (`*`/`/`, left associative). -/
def evalT : Nat → List CTok → Except Str (JNum × List CTok)
  | 0, _ => .error synErrText
  | f + 1, ts => do
    let (a, r) ← evalU f ts
    evalTRest f a r

/-- Fold the trailing `*`/`/` operations. -/
def evalTRest : Nat → JNum → List CTok → Except Str (JNum × List CTok)
  | 0, _, _ => .error synErrText
  | f + 1, a, ts =>
    match ts with
    | .cstar :: r => do
      let (b, r2) ← evalU f r
      evalTRest f (pyMul a b) r2
    | .cslash :: r => do
      let (b, r2) ← evalU f r
      let q ← pyDiv a b
      evalTRest f q r2
    | _ => .ok (a, ts)

/-- Evaluate a unary expression: signs bind looser than `**` on the left,
as in Python, where `-2 ** 2 = -(2 ** 2)`. -/
def evalU : Nat → List CTok → Except Str (JNum × List CTok)
  | 0, _ => .error synErrText
  | f + 1, ts =>
    match ts with
    | .cplus :: r => evalU f r
    | .cminus :: r => do
      let (v, r2) ← evalU f r
      .ok (pyNeg v, r2)
    | _ => evalP f ts

/-- Evaluate a power expression: `atom ** u`, right associative through
the unary level, as in Python, where `2 ** -1` is accepted. -/
def evalP : Nat → List CTok → Except Str (JNum × List CTok)
  | 0, _ => .error synErrText
  | f + 1, ts => do
    let (a, r) ← evalAtom f ts
    match r with
    | .cdstar :: r2 => do
      let (b, r3) ← evalU f r2
      let v ← pyPow a b
      .ok (v, r3)
    | _ => .ok (a, r)

/-- Evaluate an atom: a numeric literal or a parenthesised expression. -/
def evalAtom : Nat → List CTok → Except Str (JNum × List CTok)
  | 0, _ => .error synErrText
  | f + 1, ts =>
    match ts with
    | .cnum n :: r => .ok (n, r)
    | .clpar :: r => do
      let (v, r2) ← evalE f r
      match r2 with
      | .crpar :: r3 => .ok (v, r3)
      | _ => .error synErrText
    | _ => .error synErrText

end

/-- Model of `eval(expression, safe_namespace, {})` on the arithmetic
fragment: lex, evaluate, and require that all tokens are consumed. -/
def calcEval (expression : Str) : Except Str JNum :=
  match calcLex (expression.length + 1) expression with
  | none => .error synErrText
  | some ts =>
    match evalE (5 * ts.length + 10) ts with
    | .error e => .error e
    | .ok (v, []) => .ok v
    | .ok (_, _ :: _) => .error synErrText

/-- Model of `CalculatorTool.execute`
(src/smolagent/calculator_tools.py lines 34-62): evaluate the expression,
re-raising any failure as `ValueError(f"Invalid expression: {str(e)}")`. -/
def calculator_execute (expression : Str) : Except Str JNum :=
  match calcEval expression with
  | .ok v => .ok v
  | .error e => .error ("Invalid expression: ".data ++ e)

/-- `str()` rendering of a result number for `f"Tool result: {result}"`.
The `float` rendering abstracts CPython formatting; not load-bearing. -/
def renderJNum : JNum → Str
  | .jint i => (toString i).data
  | .jfloat q => if q.den = 1 then (toString q.num).data ++ ".0".data else (toString q).data

/-- The `CalculatorTool` instance as registered with the agent: keyword
binding of `execute(self, expression: str)`, then the modelled `execute`
body (src/smolagent/calculator_tools.py, class `CalculatorTool`). -/
def calculatorTool : Tool where
  name := "calculator".data
  description :=
    ("Evaluates a mathematical expression and returns the result. " ++
     "Supports basic operations (+, -, *, /, **), parentheses, and numbers. " ++
     "Example: calculator(expression=").data ++
    [Char.ofNat 39] ++ "2 + 2 * 3".data ++ [Char.ofNat 39] ++ ")".data
  execute := fun args =>
    match args with
    | [(k, v)] =>
      if k == "expression".data then
        match v with
        | .str s =>
          match calculator_execute s with
          | .ok n => .ok (renderJNum n)
          | .error e => .error e
        | _ => .error ("Invalid expression: ".data ++ evalArgText)
      else .error bindingErrorText
    | _ => .error bindingErrorText

/-- Model of `VerifyCalculationTool.execute`
(src/smolagent/calculator_tools.py lines 149-168): evaluate the expression
with a fresh `CalculatorTool`; compare exactly on two ints and with
tolerance `1e-9` (modelled as the rational `1/10^9`) when a float is
involved; every failure inside the `try` block yields `False`. -/
def verify_calculation_execute (expression : Str) (expected : JNum) : Bool :=
  match calculator_execute expression with
  | .error _ => false
  | .ok actual =>
    match actual, expected with
    | .jint a, .jint b => a == b
    | _, _ => decide (|JNum.toRat actual - JNum.toRat expected| < (1 : ℚ) / 1000000000)

/-- Number of corrective "valid JSON" user messages in a conversation. -/
def countCorrectives (msgs : List Message) : Nat :=
  msgs.countP (fun m => decide (m.role = Role.user ∧ m.content = correctiveText))

/-- The messages appended by a run of consecutive decode-failure
iterations: each backend call is followed by its assistant message and
then the corrective user message, before the next call is made. -/
def malformedBlock (provider : Nat → List Message → Str) :
    Nat → Nat → List Message → List Message
  | _, 0, _ => []
  | k, n + 1, msgs =>
    let pair : List Message :=
      [⟨Role.assistant, provider k msgs⟩, ⟨Role.user, correctiveText⟩]
    pair ++ malformedBlock provider (k + 1) n (msgs ++ pair)

/-- Decoded non-object shapes on which the dispatch self-heals: lists with
no element equal to `"final_answer"` or `"tool"`, and strings containing
neither as a substring (the membership tests at src/smolagent/agent.py
lines 118 and 122 then both answer false). -/
def selfHealingShape : JsonValue → Bool
  | .arr xs =>
    !(xs.any (fun v => match v with | .str s => s == finalAnswerKey | _ => false)) &&
    !(xs.any (fun v => match v with | .str s => s == toolKey | _ => false))
  | .str s => !(containsSub s finalAnswerKey) && !(containsSub s toolKey)
  | _ => false

/-- Decoded values on which Python `in` raises `TypeError`: numbers,
booleans and `None`. -/
def scalarShape : JsonValue → Bool
  | .null => true
  | .bool _ => true
  | .num _ => true
  | _ => false

/-- `i` is the index of the first occurrence of `c` in `s`. -/
def firstAt (s : Str) (c : Char) (i : Nat) : Bool :=
  (s[i]? == some c) && (s.take i).all (fun x => !(x == c))

/-- `j` is the index of the last occurrence of `c` in `s`. -/
def lastAt (s : Str) (c : Char) (j : Nat) : Bool :=
  (s[j]? == some c) && (s.drop (j + 1)).all (fun x => !(x == c))

/-- Whether some right brace occurs after the first left brace, that is,
whether `re.search(r"\{.*\}", s, re.DOTALL)` matches. -/
def hasBracePair (s : Str) : Bool :=
  ((s.dropWhile (fun c => !(c == lbrace))).drop 1).any (fun c => c == rbrace)

/-- The backend reply `{"final_answer": "X"}` used by several scenarios. -/
def finalAnswerXText : Str := "\x7b\"final_answer\": \"X\"\x7d".data

lemma countCorrectives_append (a b : List Message) :
    countCorrectives (a ++ b) = countCorrectives a + countCorrectives b := by
  simp [countCorrectives, List.countP_append]

lemma countCorrectives_malformedBlock (provider : Nat → List Message → Str) :
    ∀ n k msgs, countCorrectives (malformedBlock provider k n msgs) = n := by
  intro n
  induction n with
  | zero => intro k msgs; simp [malformedBlock, countCorrectives]
  | succ n ih =>
    intro k msgs
    simp only [malformedBlock, countCorrectives_append, ih]
    simp [countCorrectives, correctiveText]
    omega

lemma jdictGet_any {k : Str} {v : JsonValue} :
    ∀ {d : List (Str × JsonValue)}, jdictGet d k = some v →
      d.any (fun p => p.1 == k) = true := by
  intro d
  induction d with
  | nil => intro h; simp [jdictGet] at h
  | cons p t ih =>
    intro h
    by_cases hpk : (p.1 == k) = true
    · simp [List.any_cons, hpk]
    · have ht : jdictGet t k = some v := by
        simpa [jdictGet, List.find?_cons, hpk] using h
      simp [List.any_cons, hpk, ih ht]

lemma runAux_malformed (provider : Nat → List Message → Str)
    (reg : List (Str × Tool)) :
    ∀ N r k msgs calls,
      (∀ j, j < N → ∀ m, parse_action (provider (k + j) m) = none) →
      runAux provider reg (N + r) k msgs calls =
        runAux provider reg r (k + N)
          (msgs ++ malformedBlock provider k N msgs) (calls + N) := by
  intro N
  induction N with
  | zero => intro r k msgs calls _; simp [malformedBlock]
  | succ N ih =>
    intro r k msgs calls h
    have harr : N + 1 + r = (N + r) + 1 := by omega
    rw [harr]
    have h0 : parse_action (provider k msgs) = none := by
      have := h 0 (by omega) msgs
      simpa using this
    show runAux provider reg ((N + r) + 1) k msgs calls = _
    simp only [runAux, h0]
    have ih2 := ih r (k + 1)
      (msgs ++ [⟨Role.assistant, provider k msgs⟩] ++ [⟨Role.user, correctiveText⟩])
      (calls + 1)
      (by
        intro j hj m
        have := h (j + 1) (by omega) m
        have harr2 : k + (j + 1) = k + 1 + j := by omega
        rwa [harr2] at this)
    rw [ih2]
    have harr3 : k + 1 + N = k + (N + 1) := by omega
    have harr4 : calls + 1 + N = calls + (N + 1) := by omega
    rw [harr3, harr4]
    congr 1
    simp [malformedBlock, List.append_assoc]

/-- C4: for every parsed action object carrying both a `tool` field and a
`final_answer` field, the dispatch returns the final-answer value (Done)
and performs no tool invocation, for every registry: `final_answer` takes
precedence (src/smolagent/agent.py lines 117-119 run before 122-143). -/
theorem dispatch_final_answer_precedence (reg : List (Str × Tool))
    (msgs : List Message) (fields : List (Str × JsonValue)) (v : JsonValue)
    (hfinal : jdictGet fields finalAnswerKey = some v)
    (_htool : fields.any (fun p => p.1 == toolKey) = true) :
    dispatchAction reg (.obj fields) msgs = (.done v, 0) := by
  have hany := jdictGet_any hfinal
  simp [dispatchAction, pyContains, hany, pySubscript, hfinal]

/-- Witness for C4 at a concrete action with both fields. -/
theorem dispatch_final_answer_precedence_witness :
    dispatchAction []
      (.obj [(toolKey, .str "calculator".data), (finalAnswerKey, .str "done".data)]) [] =
      (.done (.str "done".data), 0) :=
  dispatch_final_answer_precedence [] [] _ _ rfl rfl

/-- C10: `VerifyCalculationTool.execute` returns `False` whenever the
inner calculator evaluation fails, instead of propagating the error
(src/smolagent/calculator_tools.py lines 160-168: the whole body is inside
`try`, and the bare `except` returns `False`).  Totality is by
construction of the embedding: the function returns a `Bool` on every
input. -/
theorem verify_calculation_false_on_error (expression : Str) (expected : JNum)
    (e : Str) (h : calculator_execute expression = .error e) :
    verify_calculation_execute expression expected = false := by
  simp [verify_calculation_execute, h]

/-- Witness for C10 at the failing expression `"2 +"`. -/
theorem verify_calculation_false_on_error_witness :
    verify_calculation_execute "2 +".data (.jint 4) = false :=
  verify_calculation_false_on_error "2 +".data (.jint 4)
    ("Invalid expression: invalid syntax (<string>, line 1)").data rfl

/-- C8: for every registered tool whose `execute` fails, the dispatch
appends a user message carrying `Tool error:` and the failure message,
and continues the loop (src/smolagent/agent.py lines 133-143); the
failure never ends the run. -/
theorem dispatch_tool_error_observation (reg : List (Str × Tool))
    (msgs : List Message) (fields : List (Str × JsonValue)) (n : Str) (t : Tool)
    (argFields : List (Str × JsonValue)) (e : Str)
    (hnofinal : fields.any (fun p => p.1 == finalAnswerKey) = false)
    (htool : jdictGet fields toolKey = some (.str n))
    (hargs : (jdictGet fields argumentsKey).getD (.obj []) = .obj argFields)
    (hreg : regLookup reg n = some t)
    (hexec : t.execute argFields = Except.error e) :
    dispatchAction reg (.obj fields) msgs =
      (.next (msgs ++ [⟨Role.user, toolErrorText e⟩]), 1) := by
  have hany := jdictGet_any htool
  simp [dispatchAction, pyContains, hnofinal, hany, pySubscript, htool, hargs, hreg, hexec]

/-- Witness for C8: the calculator tool on the invalid expression `"2 +"`. -/
theorem dispatch_tool_error_observation_witness :
    dispatchAction (toolRegistry [calculatorTool])
      (.obj [(toolKey, .str "calculator".data),
             (argumentsKey, .obj [("expression".data, .str "2 +".data)])]) [] =
      (.next [⟨Role.user,
         toolErrorText ("Invalid expression: invalid syntax (<string>, line 1)").data⟩], 1) :=
  dispatch_tool_error_observation (toolRegistry [calculatorTool]) []
    [(toolKey, .str "calculator".data),
     (argumentsKey, .obj [("expression".data, .str "2 +".data)])]
    "calculator".data calculatorTool [("expression".data, .str "2 +".data)]
    ("Invalid expression: invalid syntax (<string>, line 1)").data
    rfl rfl rfl rfl rfl

lemma firstIdxOf_eq_some {c : Char} :
    ∀ {s : Str} {i : Nat}, firstAt s c i = true → firstIdxOf s c = some i := by
  intro s
  induction s with
  | nil => intro i h; simp [firstAt] at h
  | cons x xs ih =>
    intro i h
    cases i with
    | zero =>
      simp only [firstAt, List.getElem?_cons_zero, List.take_zero, List.all_nil,
        Bool.and_true] at h
      have hx : x = c := by simpa using h
      simp [firstIdxOf, hx]
    | succ i =>
      simp only [firstAt, List.getElem?_cons_succ, List.take_succ_cons,
        List.all_cons, Bool.and_eq_true, Bool.not_eq_true'] at h
      obtain ⟨h1, h2, h3⟩ := h
      have : firstIdxOf xs c = some i := ih (by simp [firstAt, h1, h3])
      simp [firstIdxOf, h2, this]

lemma lastIdxOf_none_of_all {c : Char} :
    ∀ {s : Str}, s.all (fun x => !(x == c)) = true → lastIdxOf s c = none := by
  intro s
  induction s with
  | nil => intro _; rfl
  | cons x xs ih =>
    intro h
    simp only [List.all_cons, Bool.and_eq_true, Bool.not_eq_true'] at h
    obtain ⟨h1, h2⟩ := h
    have := ih (by simpa using h2)
    simp [lastIdxOf, this, h1]

lemma lastIdxOf_eq_some {c : Char} :
    ∀ {s : Str} {j : Nat}, lastAt s c j = true → lastIdxOf s c = some j := by
  intro s
  induction s with
  | nil => intro j h; simp [lastAt] at h
  | cons x xs ih =>
    intro j h
    cases j with
    | zero =>
      simp only [lastAt, List.getElem?_cons_zero, List.drop_succ_cons,
        List.drop_zero, Bool.and_eq_true] at h
      obtain ⟨h1, h2⟩ := h
      have hx : x = c := by simpa using h1
      have hnone : lastIdxOf xs c = none := lastIdxOf_none_of_all h2
      simp [lastIdxOf, hnone, hx]
    | succ j =>
      simp only [lastAt, List.getElem?_cons_succ, List.drop_succ_cons,
        Bool.and_eq_true] at h
      obtain ⟨h1, h2⟩ := h
      have : lastIdxOf xs c = some j := ih (by simp [lastAt, h1, h2])
      simp [lastIdxOf, this]

lemma getElem?_of_lastIdxOf {c : Char} :
    ∀ {s : Str} {j : Nat}, lastIdxOf s c = some j → s[j]? = some c := by
  intro s
  induction s with
  | nil => intro j h; simp [lastIdxOf] at h
  | cons x xs ih =>
    intro j h
    simp only [lastIdxOf] at h
    cases hx : lastIdxOf xs c with
    | some k =>
      rw [hx] at h
      cases h
      simpa using ih hx
    | none =>
      rw [hx] at h
      by_cases hxc : (x == c) = true
      · rw [if_pos hxc] at h
        cases h
        have : x = c := by simpa using hxc
        simp [this]
      · rw [if_neg hxc] at h
        cases h

lemma dropWhile_of_firstIdxOf {c : Char} :
    ∀ {s : Str} {i : Nat}, firstIdxOf s c = some i →
      s.dropWhile (fun x => !(x == c)) = s.drop i := by
  intro s
  induction s with
  | nil => intro i h; simp [firstIdxOf] at h
  | cons x xs ih =>
    intro i h
    simp only [firstIdxOf] at h
    by_cases hxc : (x == c) = true
    · rw [if_pos hxc] at h
      cases h
      simp [List.dropWhile_cons, hxc]
    · rw [if_neg hxc] at h
      cases hx : firstIdxOf xs c with
      | none => rw [hx] at h; cases h
      | some k =>
        rw [hx] at h
        cases h
        simp [List.dropWhile_cons, hxc, ih hx]

/-- C2 counterexample: on the text `["{", "}"]` the brace-delimited
substring (first left brace to last right brace) fails to decode and the
parser fails, although decoding the entire text would succeed (it is a
JSON array): the source never makes the second attempt when the regex
matched, so the parser does not fail "iff neither attempt succeeds". -/
theorem parse_action_no_whole_text_fallback :
    parse_action "[\"\x7b\", \"\x7d\"]".data = none ∧
    json_loads "[\"\x7b\", \"\x7d\"]".data =
      some (.arr [.str [lbrace], .str [rbrace]]) :=
  ⟨rfl, rfl⟩

/-- C2 (amended): the parser decodes, as generic JSON, exactly the greedy
substring from the first left brace to the last right brace whenever such
a pair exists, with no fallback to the whole text; only when no such pair
exists does it decode the entire text; it fails exactly when that single
attempted decode fails. -/
theorem parse_action_brace_extraction (s : Str) :
    (∀ i j, firstAt s lbrace i = true → lastAt s rbrace j = true → i < j →
      parse_action s = json_loads ((s.take (j + 1)).drop i)) ∧
    (hasBracePair s = false → parse_action s = json_loads s) := by
  constructor
  · intro i j hi hj hij
    have h1 := firstIdxOf_eq_some hi
    have h2 := lastIdxOf_eq_some hj
    simp [parse_action, extractBraced, h1, h2, hij]
  · intro h
    suffices hx : extractBraced s = none by simp [parse_action, hx]
    unfold extractBraced
    cases hfi : firstIdxOf s lbrace with
    | none => rfl
    | some i =>
      cases hla : lastIdxOf s rbrace with
      | none => rfl
      | some j =>
        have hij : ¬ i < j := by
          intro hlt
          have hdrop := dropWhile_of_firstIdxOf hfi
          have hgj : s[j]? = some rbrace := getElem?_of_lastIdxOf hla
          unfold hasBracePair at h
          rw [hdrop] at h
          have hdd : (s.drop i).drop 1 = s.drop (i + 1) := by
            rw [List.drop_drop]
          rw [hdd] at h
          have hsub : (s.drop (i + 1))[j - (i + 1)]? = some rbrace := by
            rw [List.getElem?_drop]
            have : i + 1 + (j - (i + 1)) = j := by omega
            rw [this, hgj]
          have hmem : rbrace ∈ s.drop (i + 1) := by
            have hlen := List.getElem?_eq_some.mp hsub
            obtain ⟨hb, hbe⟩ := hlen
            exact hbe ▸ List.getElem_mem hb
          have : (s.drop (i + 1)).any (fun c => c == rbrace) = true :=
            List.any_eq_true.mpr ⟨rbrace, hmem, by simp⟩
          rw [h] at this
          cases this
        simp [hij]

/-- Witness for C2 (amended) on the text `a{1}b`. -/
theorem parse_action_brace_extraction_witness :
    parse_action "a\x7b1\x7db".data =
      json_loads (("a\x7b1\x7db".data.take 4).drop 1) :=
  (parse_action_brace_extraction "a\x7b1\x7db".data).1 1 3 rfl rfl (by decide)

/-- C1 counterexample: a backend that always replies the bare number `5`
(valid JSON, not an object, no brace substring) makes `Agent.run` stop
with an uncaught `TypeError` at `"final_answer" in action`
(src/smolagent/agent.py line 118; only `json.JSONDecodeError` is caught):
the run terminates abnormally after one call of a budget of three, with a
condition that is neither `BudgetExceeded` nor `BackendTransportError`,
instead of self-healing. -/
theorem run_typeerror_on_bare_number :
    ((Agent.make (fun _ _ => "5".data) [] 3).run "t".data).1 = RunResult.typeErr ∧
    ((Agent.make (fun _ _ => "5".data) [] 3).run "t".data).2.2 = 1 :=
  ⟨rfl, rfl⟩

/-- C1 (amended): an assistant text decoding to a JSON list or string
that contains neither `"final_answer"` nor `"tool"` (as an element,
respectively substring) is self-healing: the dispatch appends the
"Please specify..." user message and the loop continues; but a text
decoding to a number, boolean or null makes the dispatch raise an
uncaught `TypeError`, so those shapes terminate the run abnormally. -/
theorem dispatch_non_object_shapes (s : Str) (v : JsonValue)
    (reg : List (Str × Tool)) (msgs : List Message)
    (hparse : parse_action s = some v) :
    (selfHealingShape v = true →
      dispatchAction reg v msgs = (.next (msgs ++ [⟨Role.user, specifyText⟩]), 0)) ∧
    (scalarShape v = true → dispatchAction reg v msgs = (.typeErr, 0)) := by
  constructor
  · intro hv
    cases v with
    | arr xs =>
      simp only [selfHealingShape, Bool.and_eq_true, Bool.not_eq_true'] at hv
      obtain ⟨h1, h2⟩ := hv
      simp [dispatchAction, pyContains, h1, h2]
    | str s1 =>
      simp only [selfHealingShape, Bool.and_eq_true, Bool.not_eq_true'] at hv
      obtain ⟨h1, h2⟩ := hv
      simp [dispatchAction, pyContains, h1, h2]
    | null => simp [selfHealingShape] at hv
    | bool b => simp [selfHealingShape] at hv
    | num n => simp [selfHealingShape] at hv
    | obj f => simp [selfHealingShape] at hv
  · intro hv
    cases v with
    | null => simp [dispatchAction, pyContains]
    | bool b => simp [dispatchAction, pyContains]
    | num n => simp [dispatchAction, pyContains]
    | str s1 => simp [scalarShape] at hv
    | arr xs => simp [scalarShape] at hv
    | obj f => simp [scalarShape] at hv

/-- Witness for C1 (amended) on the text `[1, 2]`. -/
theorem dispatch_non_object_shapes_witness :
    dispatchAction [] (.arr [.num (.jint 1), .num (.jint 2)]) [] =
      (.next [⟨Role.user, specifyText⟩], 0) :=
  (dispatch_non_object_shapes "[1, 2]".data
    (.arr [.num (.jint 1), .num (.jint 2)]) [] [] rfl).1 rfl

lemma parse_finalAnswerXText :
    parse_action finalAnswerXText = some (.obj [(finalAnswerKey, .str "X".data)]) := rfl

lemma dispatch_finalAnswerX (reg : List (Str × Tool)) (msgs : List Message) :
    dispatchAction reg (.obj [(finalAnswerKey, .str "X".data)]) msgs =
      (.done (.str "X".data), 0) := rfl

/-- C5: if the backend replies `{"final_answer": "X"}` on the first call,
the run returns the string `"X"` after exactly one backend call, for
every task (src/smolagent/agent.py lines 96-119). -/
theorem run_immediate_final_answer (provider : Nat → List Message → Str)
    (toolList : List Tool) (task : Str) (n : Nat)
    (hn : 0 < n)
    (h0 : provider 0 (initialMessages (toolRegistry toolList) task) = finalAnswerXText) :
    (Agent.make provider toolList n).run task =
      (.answer (.str "X".data),
       initialMessages (toolRegistry toolList) task ++ [⟨Role.assistant, finalAnswerXText⟩],
       1) := by
  obtain ⟨r, rfl⟩ : ∃ r, n = r + 1 := ⟨n - 1, by omega⟩
  show runAux provider (toolRegistry toolList) (r + 1) 0
    (initialMessages (toolRegistry toolList) task) 0 = _
  simp only [runAux, h0, parse_finalAnswerXText]
  rfl

/-- Witness for C5 with a constant backend and the default budget. -/
theorem run_immediate_final_answer_witness :
    (Agent.make (fun _ _ => finalAnswerXText) [] 10).run "hi".data =
      (.answer (.str "X".data),
       initialMessages (toolRegistry []) "hi".data ++ [⟨Role.assistant, finalAnswerXText⟩],
       1) :=
  run_immediate_final_answer (fun _ _ => finalAnswerXText) [] "hi".data 10 (by decide) rfl

/-- C3: if every backend reply fails to decode, the run ends with
`BudgetExceeded` (the `RuntimeError` of src/smolagent/agent.py line 154)
after exactly `max_iterations` backend calls, and the conversation grows,
per call, by the assistant reply followed by one corrective user message
before the next call (the shape recorded by `malformedBlock`), so it
carries exactly `max_iterations` corrective messages. -/
theorem run_budget_exceeded_on_malformed (provider : Nat → List Message → Str)
    (toolList : List Tool) (task : Str) (n : Nat)
    (h : ∀ k m, parse_action (provider k m) = none) :
    ((Agent.make provider toolList n).run task =
      (.budgetExceeded,
       initialMessages (toolRegistry toolList) task ++
         malformedBlock provider 0 n (initialMessages (toolRegistry toolList) task),
       n)) ∧
    countCorrectives
      (malformedBlock provider 0 n (initialMessages (toolRegistry toolList) task)) = n := by
  constructor
  · have key := runAux_malformed provider (toolRegistry toolList) n 0 0
      (initialMessages (toolRegistry toolList) task) 0
      (fun j _ m => by simpa using h j m)
    show runAux provider (toolRegistry toolList) (n + 0) 0
      (initialMessages (toolRegistry toolList) task) 0 = _
    rw [key]
    simp [runAux]
  · exact countCorrectives_malformedBlock provider n 0 _

/-- Witness for C3 with a constant undecodable backend and budget 2. -/
theorem run_budget_exceeded_on_malformed_witness :
    ((Agent.make (fun _ _ => "nope".data) [] 2).run "t".data =
      (.budgetExceeded,
       initialMessages (toolRegistry []) "t".data ++
         malformedBlock (fun _ _ => "nope".data) 0 2 (initialMessages (toolRegistry []) "t".data),
       2)) ∧
    countCorrectives (malformedBlock (fun _ _ => "nope".data) 0 2
      (initialMessages (toolRegistry []) "t".data)) = 2 :=
  run_budget_exceeded_on_malformed (fun _ _ => "nope".data) [] "t".data 2 (fun _ _ => rfl)

/-- C6: if the backend replies undecodably on its first `N` calls
(`N < max_iterations`) and its reply on call `N + 1` decodes to any valid
final-answer action (an object whose `final_answer` field is the string
`s`), the run returns that final answer, and the part of the conversation
after the two seeded messages carries exactly `N` corrective user
messages (src/smolagent/agent.py lines 104-119). -/
theorem run_recovers_after_malformed (provider : Nat → List Message → Str)
    (toolList : List Tool) (task : Str) (N n : Nat)
    (fields : List (Str × JsonValue)) (s : Str)
    (hN : N < n)
    (hmal : ∀ j, j < N → ∀ m, parse_action (provider j m) = none)
    (hfin : parse_action (provider N
        (initialMessages (toolRegistry toolList) task ++
          malformedBlock provider 0 N (initialMessages (toolRegistry toolList) task))) =
      some (.obj fields))
    (hval : jdictGet fields finalAnswerKey = some (.str s)) :
    (((Agent.make provider toolList n).run task).1 = .answer (.str s)) ∧
    countCorrectives
      ((((Agent.make provider toolList n).run task).2.1).drop
        (initialMessages (toolRegistry toolList) task).length) = N := by
  obtain ⟨r, rfl⟩ : ∃ r, n = N + (r + 1) := ⟨n - N - 1, by omega⟩
  have key := runAux_malformed provider (toolRegistry toolList) N (r + 1) 0
    (initialMessages (toolRegistry toolList) task) 0
    (fun j hj m => by simpa using hmal j hj m)
  have hany := jdictGet_any hval
  have hrun : (Agent.make provider toolList (N + (r + 1))).run task =
      runAux provider (toolRegistry toolList) (r + 1) (0 + N)
        (initialMessages (toolRegistry toolList) task ++
          malformedBlock provider 0 N (initialMessages (toolRegistry toolList) task))
        (0 + N) := key
  have hd : ∀ ms, dispatchAction (toolRegistry toolList) (.obj fields) ms =
      (.done (.str s), 0) := by
    intro ms
    simp [dispatchAction, pyContains, hany, pySubscript, hval]
  have hstep : runAux provider (toolRegistry toolList) (r + 1) (0 + N)
      (initialMessages (toolRegistry toolList) task ++
        malformedBlock provider 0 N (initialMessages (toolRegistry toolList) task))
      (0 + N) =
      (.answer (.str s),
       (initialMessages (toolRegistry toolList) task ++
         malformedBlock provider 0 N (initialMessages (toolRegistry toolList) task)) ++
         [⟨Role.assistant, provider N
           (initialMessages (toolRegistry toolList) task ++
             malformedBlock provider 0 N (initialMessages (toolRegistry toolList) task))⟩],
       (0 + N) + 1) := by
    simp only [runAux, Nat.zero_add, hfin, hd]
  rw [hrun, hstep]
  refine ⟨rfl, ?_⟩
  rw [List.append_assoc, List.drop_left, countCorrectives_append,
    countCorrectives_malformedBlock]
  simp [countCorrectives, correctiveText]

/-- Witness for C6 with one undecodable reply followed by a final-answer
reply, and budget 3. -/
theorem run_recovers_after_malformed_witness :
    ((((Agent.make (fun k _ => if k < 1 then "bad".data else finalAnswerXText) [] 3).run
        "t".data).1 = RunResult.answer (.str "X".data)) ∧
    countCorrectives
      ((((Agent.make (fun k _ => if k < 1 then "bad".data else finalAnswerXText) [] 3).run
          "t".data).2.1).drop
        (initialMessages (toolRegistry []) "t".data).length) = 1) :=
  run_recovers_after_malformed (fun k _ => if k < 1 then "bad".data else finalAnswerXText)
    [] "t".data 1 3 [(finalAnswerKey, .str "X".data)] "X".data (by decide)
    (fun j hj _ => by
      have hj0 : j = 0 := by omega
      subst hj0
      rfl)
    rfl rfl

/-- C7: an action naming an unregistered tool makes the run append the
`Unknown tool:` observation naming it as a user message and continue
without raising, and a later valid final answer still reaches Done
(src/smolagent/agent.py lines 122-131): with budget at least two, a first
reply requesting the unknown tool followed by a final-answer reply gives
a normal run returning the answer, with the observation in the
conversation. -/
theorem run_unknown_tool_recovers (provider : Nat → List Message → Str)
    (toolList : List Tool) (task : Str) (r : Nat)
    (fields : List (Str × JsonValue)) (n : Str)
    (hparse : parse_action (provider 0 (initialMessages (toolRegistry toolList) task)) =
      some (.obj fields))
    (hnofinal : fields.any (fun p => p.1 == finalAnswerKey) = false)
    (htool : jdictGet fields toolKey = some (.str n))
    (hreg : regLookup (toolRegistry toolList) n = none)
    (hfin : ∀ m, provider 1 m = finalAnswerXText) :
    (Agent.make provider toolList (r + 2)).run task =
      (.answer (.str "X".data),
       initialMessages (toolRegistry toolList) task ++
         [⟨Role.assistant, provider 0 (initialMessages (toolRegistry toolList) task)⟩,
          ⟨Role.user, unknownToolText n⟩,
          ⟨Role.assistant, finalAnswerXText⟩],
       2) := by
  have hany := jdictGet_any htool
  have hd : dispatchAction (toolRegistry toolList) (.obj fields)
      (initialMessages (toolRegistry toolList) task ++
        [⟨Role.assistant, provider 0 (initialMessages (toolRegistry toolList) task)⟩]) =
      (.next ((initialMessages (toolRegistry toolList) task ++
        [⟨Role.assistant, provider 0 (initialMessages (toolRegistry toolList) task)⟩]) ++
        [⟨Role.user, unknownToolText n⟩]), 0) := by
    simp [dispatchAction, pyContains, hnofinal, hany, pySubscript, htool, hreg]
  show runAux provider (toolRegistry toolList) (r + 2) 0
    (initialMessages (toolRegistry toolList) task) 0 = _
  simp only [runAux, hparse, hd]
  simp only [Nat.zero_add, hfin, parse_finalAnswerXText]
  simp [List.append_assoc]
  rfl

/-- Witness for C7: the unknown tool `nosuch`, then the final answer. -/
theorem run_unknown_tool_recovers_witness :
    (Agent.make
      (fun k _ => if k = 0 then "\x7b\"tool\": \"nosuch\"\x7d".data else finalAnswerXText)
      [] 2).run "t".data =
      (.answer (.str "X".data),
       initialMessages (toolRegistry []) "t".data ++
         [⟨Role.assistant, "\x7b\"tool\": \"nosuch\"\x7d".data⟩,
          ⟨Role.user, unknownToolText "nosuch".data⟩,
          ⟨Role.assistant, finalAnswerXText⟩],
       2) :=
  run_unknown_tool_recovers
    (fun k _ => if k = 0 then "\x7b\"tool\": \"nosuch\"\x7d".data else finalAnswerXText)
    [] "t".data 0 [(toolKey, .str "nosuch".data)] "nosuch".data
    rfl rfl rfl rfl (fun _ => rfl)

lemma foldl_regInsert_fresh :
    ∀ (ts : List Tool) (d : List (Str × Tool)),
      (∀ t ∈ ts, ∀ p ∈ d, p.1 ≠ t.name) →
      (ts.map Tool.name).Nodup →
      ts.foldl (fun d t => regInsert d t.name t) d =
        d ++ ts.map (fun t => (t.name, t)) := by
  intro ts
  induction ts with
  | nil => intro d _ _; simp
  | cons t ts ih =>
    intro d hfresh hnodup
    simp only [List.foldl_cons]
    have hno : d.any (fun p => p.1 == t.name) = false := by
      cases hc : d.any (fun p => p.1 == t.name) with
      | false => rfl
      | true =>
        obtain ⟨p, hp, hpe⟩ := List.any_eq_true.mp hc
        exact absurd (by simpa using hpe) (hfresh t (by simp) p hp)
    rw [show regInsert d t.name t = d ++ [(t.name, t)] by simp [regInsert, hno]]
    rw [List.map_cons, List.nodup_cons] at hnodup
    rw [ih (d ++ [(t.name, t)]) ?_ hnodup.2]
    · simp
    · intro u hu p hp
      rcases List.mem_append.mp hp with hpd | hpt
      · exact hfresh u (by simp [hu]) p hpd
      · have : p = (t.name, t) := by simpa using hpt
        subst this
        intro hcontra
        have hc2 : t.name = u.name := hcontra
        exact hnodup.1 (by rw [hc2]; exact List.mem_map_of_mem Tool.name hu)

lemma toolRegistry_of_nodup (toolList : List Tool)
    (h : (toolList.map Tool.name).Nodup) :
    toolRegistry toolList = toolList.map (fun t => (t.name, t)) := by
  have := foldl_regInsert_fresh toolList [] (by simp) h
  simpa [toolRegistry] using this

/-- C9: for a tool list with pairwise-distinct names, the system prompt is
the fixed template with, between the header and the instruction footer,
exactly one formatted `- name: description` line per tool, in order,
joined by newlines (src/smolagent/agent.py lines 47-70; the registry dict
built at line 44 preserves the list order and drops nothing when the
names are unique). -/
theorem system_prompt_enumeration (toolList : List Tool)
    (hnodup : (toolList.map Tool.name).Nodup) :
    create_system_prompt (toolRegistry toolList) =
      promptHeader ++ joinSep nlStr (toolList.map formatToolLine) ++ promptFooter := by
  rw [create_system_prompt, format_tools_description, toolRegistry_of_nodup toolList hnodup]
  congr 2
  simp [List.map_map, Function.comp_def]

/-- Witness for C9 with the calculator tool alone. -/
theorem system_prompt_enumeration_witness :
    create_system_prompt (toolRegistry [calculatorTool]) =
      promptHeader ++ joinSep nlStr ([calculatorTool].map formatToolLine) ++ promptFooter :=
  system_prompt_enumeration [calculatorTool] (by simp)
